import Mathlib

/-
Verification of the bindle invoice model (technosophos/bindle).

The definitions below are a shallow embedding of src/src/invoice/mod.rs
(the current Invoice implementation with duplicate-signature checking,
timestamps, and key-carrying errors) together with the parcel/group
helpers from src/src/lib.rs.  External crates are modelled:

- ed25519_dalek is idealized: a public key is an abstract identifier, a
  signature over a message records the signing key and the message, and
  strict verification checks exactly those two components.  This captures
  the correctness and unforgeability properties the repository relies on.
- base64 wire strings are modelled by the type Wire: a wire string is
  either a valid base64 encoding of some byte string or any other text.
  Byte strings themselves (type Bytes) are either 32 bytes forming a
  valid Ed25519 public key, 64 bytes forming a signature, or anything
  else, mirroring the three outcomes of decode plus from_bytes checks.
-/

namespace Bindle

/-- Decidable equality for Except results, used to evaluate the
operations on concrete inputs. -/
instance exceptDecEq {ε α : Type} [DecidableEq ε] [DecidableEq α] :
    DecidableEq (Except ε α) := fun x y =>
  match x, y with
  | .ok a, .ok b =>
    if h : a = b then .isTrue (by rw [h])
    else .isFalse (fun hc => h (Except.ok.injEq a b ▸ hc))
  | .ok a, .error e => .isFalse (fun hc => Except.noConfusion hc)
  | .error e, .ok a => .isFalse (fun hc => Except.noConfusion hc)
  | .error e, .error f =>
    if h : e = f then .isTrue (by rw [h])
    else .isFalse (fun hc => h (Except.error.injEq e f ▸ hc))

/-- Abstract identifier standing for a 32-byte Ed25519 public key. -/
abbrev PubKey := Nat

/-- Model of ed25519_dalek::Keypair: determined by its public half. -/
structure Keypair where
  pubkey : PubKey
deriving DecidableEq, Repr

/-- Idealized Ed25519 signature: records the signing key and the message. -/
structure EdSig where
  signer : PubKey
  msg : String
deriving DecidableEq, Repr

/-- Model of Keypair::sign from ed25519_dalek. -/
def edSign (k : Keypair) (msg : String) : EdSig := ⟨k.pubkey, msg⟩

/-- Model of PublicKey::verify_strict from ed25519_dalek. -/
def verify_strict (pk : PubKey) (msg : String) (s : EdSig) : Bool :=
  decide (s.signer = pk ∧ s.msg = msg)

/-- Model of a decoded byte string: either 32 bytes that form a valid
public key, 64 bytes that form a valid signature block, or any other
byte string (the two valid shapes have distinct lengths, hence the
disjoint constructors). -/
inductive Bytes where
  | keyBytes : PubKey → Bytes
  | sigBytes : EdSig → Bytes
  | other : String → Bytes
deriving DecidableEq, Repr

/-- Model of a wire string field: either a valid standard-alphabet base64
encoding of some byte string, or text that is not valid base64. -/
inductive Wire where
  | enc : Bytes → Wire
  | raw : String → Wire
deriving DecidableEq, Repr

/-- Model of base64::decode over the Wire model of strings. -/
def b64Decode : Wire → Option Bytes
  | .enc b => some b
  | .raw _ => none

/-- Model of base64::encode of a 32-byte public key. -/
def b64EncodeKey (pk : PubKey) : Wire := .enc (.keyBytes pk)

/-- Model of base64::encode of a 64-byte Ed25519 signature. -/
def b64EncodeSig (s : EdSig) : Wire := .enc (.sigBytes s)

/-- Model of PublicKey::from_bytes: succeeds exactly on 32-byte keys. -/
def fromBytesKey : Bytes → Option PubKey
  | .keyBytes pk => some pk
  | _ => none

/-- Model of the 64-byte try_into conversion feeding EdSignature::new:
succeeds exactly on 64-byte signature blocks. -/
def sigFromBytes : Bytes → Option EdSig
  | .sigBytes s => some s
  | _ => none

/-- Modelled from the spec: SignatureRole (src/src/invoice/signature.rs is
not under src/); roles per section 3.6 of the spec. -/
inductive SignatureRole where
  | creator
  | proxy
  | host
  | approver
deriving DecidableEq, Repr

/-- Modelled from the spec: the lowercase role name used both on the wire
and in the signing cleartext (SignatureRole::to_string in the source,
section 6.4 of the spec). -/
def SignatureRole.str : SignatureRole → String
  | .creator => "creator"
  | .proxy => "proxy"
  | .host => "host"
  | .approver => "approver"

/-- Modelled from the spec: SignatureError of invoice/signature.rs; the
variants and their key-string payloads are taken from their uses in
src/src/invoice/mod.rs (CorruptKey, CorruptSignature and Unverified carry
the offending key string, here its Wire model). -/
inductive SignatureError where
  | Unverified : Wire → SignatureError
  | SigningFailed
  | CorruptKey : Wire → SignatureError
  | CorruptSignature : Wire → SignatureError
  | UnknownSigningKey
  | NoKnownKey
  | DuplicateSignature
deriving DecidableEq, Repr

/-- Signature block of an invoice (struct Signature): by, key (base64
public key), signature (base64 Ed25519 signature), role, at (Unix
seconds). -/
structure Signature where
  by_ : String
  key : Wire
  signature : Wire
  role : SignatureRole
  at_ : Nat
deriving DecidableEq, Repr

/-- Label of a parcel (struct Label in src/src/lib.rs, with the origin
field of the invoice/label.rs version); maps are association lists in
declaration order. -/
structure Label where
  sha256 : String
  mediaType : String
  name : String
  size : Nat
  annotations : Option (List (String × String))
  feature : Option (List (String × List (String × String)))
  origin : Option String
deriving DecidableEq, Repr

/-- Conditions of a parcel (struct Condition in src/src/lib.rs). -/
structure Condition where
  memberOf : Option (List String)
  requires : Option (List String)
deriving DecidableEq, Repr

/-- Parcel (struct Parcel in src/src/lib.rs). -/
structure Parcel where
  label : Label
  conditions : Option Condition
deriving DecidableEq, Repr

/-- Group (struct Group in src/src/lib.rs). -/
structure Group where
  name : String
  required : Option Bool
  satisfiedBy : Option String
deriving DecidableEq, Repr

/-- Release semantic version triple (model of semver::Version restricted
to release versions, the only shape the claims exercise). -/
structure Version where
  major : Nat
  minor : Nat
  patch : Nat
deriving DecidableEq, Repr

/-- String rendering of a version, as semver::Version::to_string. -/
def Version.str : Version → String
  | ⟨ma, mi, pa⟩ => toString ma ++ "." ++ toString mi ++ "." ++ toString pa

/-- Modelled from the spec: Id (src/src/id.rs is not under src/); a
name/version pair per section 3.1 of the spec. -/
structure Id where
  name : String
  version : Version
deriving DecidableEq, Repr

/-- Model of Id::version_string. -/
def Id.version_string (i : Id) : String := i.version.str

/-- BindleSpec (struct BindleSpec in src/src/lib.rs): the id plus
optional description and authors. -/
structure BindleSpec where
  id : Id
  description : Option String
  authors : Option (List String)
deriving DecidableEq, Repr

/-- Invoice (struct Invoice in src/src/invoice/mod.rs). -/
structure Invoice where
  bindleVersion : String
  yanked : Option Bool
  yankedSignature : Option (List Signature)
  bindle : BindleSpec
  annotations : Option (List (String × String))
  parcel : Option (List Parcel)
  group : Option (List Group)
  signature : Option (List Signature)
deriving DecidableEq, Repr

/-- Model of Vec::join over strings (buf.join of the source). -/
def strJoin (sep : String) : List String → String
  | [] => ""
  | [a] => a
  | a :: b :: rest => a ++ sep ++ strJoin sep (b :: rest)

/-- Concatenation of a list of strings, used to state the cleartext
shape the spec describes. -/
def strConcat (l : List String) : String := l.foldr (fun a b => a ++ b) ""

/-- Parcel::member_of from src/src/lib.rs: the parcel belongs to the
named group via its conditions. -/
def Parcel.member_of (p : Parcel) (g : String) : Bool :=
  match p.conditions with
  | some conditions =>
    match conditions.memberOf with
    | some groups => groups.any (fun x => x == g)
    | none => false
  | none => false

/-- Parcel::is_global_group from src/src/lib.rs. -/
def Parcel.is_global_group (p : Parcel) : Bool :=
  match p.conditions with
  | some conditions =>
    match conditions.memberOf with
    | some groups => groups.isEmpty
    | none => true
  | none => true

/-- Invoice::has_group from src/src/invoice/mod.rs. -/
def Invoice.has_group (inv : Invoice) (name : String) : Bool :=
  (inv.group.getD []).any (fun g => g.name == name)

/-- Invoice::group_members from src/src/invoice/mod.rs. -/
def Invoice.group_members (inv : Invoice) (name : String) : List Parcel :=
  if !inv.has_group name then
    []
  else
    (inv.parcel.getD []).filter (fun p => p.member_of name)

/-- Invoice::cleartext from src/src/invoice/mod.rs: the newline join of
by, name, version string, lowercase role, a tilde, and the sha256 of
every declared parcel in order. -/
def Invoice.cleartext (inv : Invoice) (by_ : String) (role : SignatureRole) : String :=
  let id := inv.bindle.id
  let buf := [by_, id.name, id.version_string, role.str, "~"]
  let buf := buf ++ (match inv.parcel with
    | some list => list.map (fun p => p.label.sha256)
    | none => [])
  strJoin "\n" buf

/-- Invoice::sign from src/src/invoice/mod.rs; the system clock read is
passed in as the explicit now argument (Unix seconds). -/
def Invoice.sign (inv : Invoice) (signerName : String) (signerRole : SignatureRole)
    (key : Keypair) (now : Nat) : Except SignatureError Invoice :=
  let encodedKey := b64EncodeKey key.pubkey
  if (inv.signature.getD []).any (fun s => s.key == encodedKey) then
    .error .DuplicateSignature
  else
    let cleartext := inv.cleartext signerName signerRole
    let signature := edSign key cleartext
    let entry : Signature :=
      { by_ := signerName
        key := encodedKey
        signature := b64EncodeSig signature
        role := signerRole
        at_ := now }
    match inv.signature with
    | some signatures => .ok { inv with signature := some (signatures ++ [entry]) }
    | none => .ok { inv with signature := some [entry] }

/-- Invoice::verify_signature from src/src/invoice/mod.rs: base64-decode
the key, base64-decode the signature block, reconstruct the public key,
convert the signature block to 64 bytes, then verify strictly; the error
checks happen in exactly this order in the source. -/
def Invoice.verify_signature (_inv : Invoice) (sig : Signature) (cleartext : String) :
    Except SignatureError Unit :=
  match b64Decode sig.key with
  | none => .error (.CorruptKey sig.key)
  | some pk =>
    match b64Decode sig.signature with
    | none => .error (.CorruptSignature sig.key)
    | some sigBlock =>
      match fromBytesKey pk with
      | none => .error (.CorruptKey sig.key)
      | some pubkey =>
        match sigFromBytes sigBlock with
        | none => .error (.CorruptSignature sig.key)
        | some edSig =>
          if verify_strict pubkey cleartext edSig then .ok ()
          else .error (.Unverified sig.key)

/-- Loop body of Invoice::verify: walk the signatures, verifying each and
accumulating whether some signature key is on the keyring. -/
def Invoice.verifyLoop (inv : Invoice) (keyring : List PubKey) :
    List Signature → Bool → Except SignatureError Bool
  | [], knownKey => .ok knownKey
  | s :: rest, knownKey =>
    let cleartext := inv.cleartext s.by_ s.role
    match inv.verify_signature s cleartext with
    | .error e => .error e
    | .ok _ =>
      match b64Decode s.key with
      | none => .error (.CorruptKey s.key)
      | some pubkey =>
        match fromBytesKey pubkey with
        | none => .error (.CorruptKey s.key)
        | some pko =>
          inv.verifyLoop keyring rest (knownKey || keyring.contains pko)

/-- Operator of a parsed requirement (model of the semver crate with
Compat::Npm, restricted to the single-comparator grammar the repository
exercises): a bare or equals comparator, a caret comparator, or a tilde
comparator. -/
inductive ReqOp where
  | exact
  | caret
  | tilde
deriving DecidableEq, Repr

/-- Parsed requirement: operator plus a possibly partial version. -/
structure ParsedReq where
  op : ReqOp
  major : Nat
  minor : Option Nat
  patch : Option Nat
deriving DecidableEq, Repr

/-- Whitespace test on a character (space, tab, newline, return). -/
def isWsp (c : Char) : Bool :=
  decide (c.toNat = 32 ∨ c.toNat = 9 ∨ c.toNat = 10 ∨ c.toNat = 13)

/-- Trim whitespace from both ends of a character list. -/
def trimChars (l : List Char) : List Char :=
  ((l.dropWhile isWsp).reverse.dropWhile isWsp).reverse

/-- Split a character list on the dot character. -/
def splitDot : List Char → List (List Char)
  | [] => [[]]
  | c :: rest =>
    let r := splitDot rest
    if c = '.' then [] :: r
    else
      match r with
      | [] => [[c]]
      | h :: t => (c :: h) :: t

/-- Accumulating decimal parse of a digit list; fails on a non-digit. -/
def parseNatAcc : List Char → Nat → Option Nat
  | [], acc => some acc
  | c :: rest, acc =>
    if 48 ≤ c.toNat ∧ c.toNat ≤ 57 then
      parseNatAcc rest (acc * 10 + (c.toNat - 48))
    else
      none

/-- Numeric component of a version: a nonempty all-digit run. -/
def parseNatChars (l : List Char) : Option Nat :=
  match l with
  | [] => none
  | _ => parseNatAcc l 0

/-- Dotted numeric version parts of a requirement: one, two or three
all-digit components. -/
def parseVerParts (l : List Char) : Option (Nat × Option Nat × Option Nat) :=
  match (splitDot l).map parseNatChars with
  | [some a] => some (a, none, none)
  | [some a, some b] => some (a, some b, none)
  | [some a, some b, some c] => some (a, some b, some c)
  | _ => none

/-- Model of semver::VersionReq::parse_compat with Compat::Npm on the
single-comparator grammar: an optional operator prefix followed by a
possibly partial version; a bare version gets the exact operator (npm
semantics). -/
def parseReq (s : String) : Option ParsedReq :=
  let step : ReqOp × List Char :=
    match trimChars s.toList with
    | '=' :: rest => (.exact, trimChars rest)
    | '^' :: rest => (.caret, trimChars rest)
    | '~' :: rest => (.tilde, trimChars rest)
    | t => (.exact, t)
  (parseVerParts step.2).map (fun x => ⟨step.1, x.1, x.2.1, x.2.2⟩)

/-- Lexicographic order on version triples (semver release ordering). -/
def Version.lt (a b : Version) : Bool :=
  decide (a.major < b.major ∨
    (a.major = b.major ∧ (a.minor < b.minor ∨
      (a.minor = b.minor ∧ a.patch < b.patch))))

/-- Model of VersionReq::matches for the npm-compatible parsed
requirement: exact comparators match componentwise on the given parts
(x-range semantics for partial versions); caret allows
compatible-with-leftmost-nonzero upgrades; tilde allows patch upgrades. -/
def reqMatches (r : ParsedReq) (v : Version) : Bool :=
  match r.op with
  | .exact =>
    match r.minor, r.patch with
    | some mi, some pa => decide (v = ⟨r.major, mi, pa⟩)
    | some mi, none => decide (v.major = r.major ∧ v.minor = mi)
    | none, _ => decide (v.major = r.major)
  | .caret =>
    let lo : Version := ⟨r.major, r.minor.getD 0, r.patch.getD 0⟩
    let hi : Version :=
      if r.major > 0 then ⟨r.major + 1, 0, 0⟩
      else match r.minor with
        | some mi =>
          if mi > 0 then ⟨0, mi + 1, 0⟩
          else match r.patch with
            | some pa => ⟨0, 0, pa + 1⟩
            | none => ⟨0, 1, 0⟩
        | none => ⟨1, 0, 0⟩
    !Version.lt v lo && Version.lt v hi
  | .tilde =>
    match r.minor with
    | some mi =>
      let lo : Version := ⟨r.major, mi, r.patch.getD 0⟩
      !Version.lt v lo && Version.lt v ⟨r.major, mi + 1, 0⟩
    | none =>
      !Version.lt v ⟨r.major, 0, 0⟩ && Version.lt v ⟨r.major + 1, 0, 0⟩

/-- version_compare from src/src/invoice/mod.rs: an empty requirement
matches anything; a requirement that fails to parse matches nothing;
otherwise the parsed requirement decides. -/
def version_compare (version : Version) (requirement : String) : Bool :=
  if requirement.isEmpty then
    true
  else
    match parseReq requirement with
    | some req => reqMatches req version
    | none => false

/-- Invoice::verify from src/src/invoice/mod.rs: no signatures succeed
immediately; otherwise every signature must verify and at least one key
must be on the keyring, else NoKnownKey. -/
def Invoice.verify (inv : Invoice) (keyring : List PubKey) : Except SignatureError Unit :=
  match inv.signature with
  | none => .ok ()
  | some signatures =>
    match inv.verifyLoop keyring signatures false with
    | .error e => .error e
    | .ok knownKey => if !knownKey then .error .NoKnownKey else .ok ()

/-- Modelled from the spec: TOML value tree for the wire format of
section 6.1 (the toml crate and the serde-derived deserializers are
external generated code, not under src/). -/
inductive Toml where
  | str : String → Toml
  | num : Nat → Toml
  | boolean : Bool → Toml
  | arr : List Toml → Toml
  | table : List (String × Toml) → Toml

/-- Lookup of a key in a TOML table. -/
def tomlGet (t : List (String × Toml)) (k : String) : Option Toml :=
  (t.find? (fun p => p.1 == k)).map (fun p => p.2)

/-- Check that every key of a table is a schema field name; the
serde attribute deny_unknown_fields rejects a table failing this. -/
def knownKeysOnly (t : List (String × Toml)) (ks : List String) : Bool :=
  t.all (fun p => ks.contains p.1)

/-- Decode a TOML string value. -/
def decStr : Toml → Except String String
  | .str s => .ok s
  | _ => .error "expected string"

/-- Decode a TOML integer value. -/
def decNum : Toml → Except String Nat
  | .num n => .ok n
  | _ => .error "expected integer"

/-- Decode a TOML boolean value. -/
def decBool : Toml → Except String Bool
  | .boolean b => .ok b
  | _ => .error "expected boolean"

/-- Decode a TOML array elementwise. -/
def decList (d : Toml → Except String α) : Toml → Except String (List α)
  | .arr xs => xs.mapM d
  | _ => .error "expected array"

/-- Decode an optional field of a table. -/
def decOpt (t : List (String × Toml)) (k : String) (d : Toml → Except String α) :
    Except String (Option α) :=
  match tomlGet t k with
  | none => .ok none
  | some v => (d v).map some

/-- Decode a required field of a table. -/
def decReq (t : List (String × Toml)) (k : String) (d : Toml → Except String α) :
    Except String α :=
  match tomlGet t k with
  | none => .error "missing field"
  | some v => d v

/-- Decode a TOML table as a string-to-string map in declared order. -/
def decStrMap : Toml → Except String (List (String × String))
  | .table t => t.mapM (fun p => (decStr p.2).map (fun s => (p.1, s)))
  | _ => .error "expected table"

/-- Decode a TOML table as a two-level string map. -/
def decStrMap2 : Toml → Except String (List (String × List (String × String)))
  | .table t => t.mapM (fun p => (decStrMap p.2).map (fun m => (p.1, m)))
  | _ => .error "expected table"

/-- Wire text is embedded into the Wire model of base64 strings. -/
def wireOfStr (s : String) : Wire := .raw s

/-- Wire field names of the Signature schema. -/
def signatureKeys : List String := ["by", "key", "signature", "role", "at"]

/-- Wire field names of the Label schema. -/
def labelKeys : List String :=
  ["sha256", "mediaType", "name", "size", "annotations", "feature", "origin"]

/-- Wire field names of the Condition schema. -/
def conditionKeys : List String := ["memberOf", "requires"]

/-- Wire field names of the Parcel schema. -/
def parcelKeys : List String := ["label", "conditions"]

/-- Wire field names of the Group schema. -/
def groupKeys : List String := ["name", "required", "satisfiedBy"]

/-- Wire field names of the bindle table: the flattened Id contributes
name and version. -/
def bindleSpecKeys : List String := ["name", "version", "description", "authors"]

/-- Wire field names of the Invoice schema. -/
def invoiceKeys : List String :=
  ["bindleVersion", "yanked", "yankedSignature", "bindle", "annotations",
   "parcel", "group", "signature"]

/-- Decode a signature role from its lowercase wire name (the serde
rename attributes on SignatureRole). -/
def decRole : Toml → Except String SignatureRole
  | .str "creator" => .ok .creator
  | .str "proxy" => .ok .proxy
  | .str "host" => .ok .host
  | .str "approver" => .ok .approver
  | _ => .error "unknown role"

/-- Modelled from the spec: serde-derived deserializer for Signature with
deny_unknown_fields (camelCase wire names per section 6.1). -/
def decodeSignature : Toml → Except String Signature
  | .table t =>
    if !knownKeysOnly t signatureKeys then
      .error "unknown field"
    else do
      let by_ ← decReq t "by" decStr
      let key ← decReq t "key" decStr
      let sg ← decReq t "signature" decStr
      let role ← decReq t "role" decRole
      let at_ ← decReq t "at" decNum
      .ok ⟨by_, wireOfStr key, wireOfStr sg, role, at_⟩
  | _ => .error "expected table"

/-- Modelled from the spec: serde-derived deserializer for Label with
deny_unknown_fields. -/
def decodeLabel : Toml → Except String Label
  | .table t =>
    if !knownKeysOnly t labelKeys then
      .error "unknown field"
    else do
      let sha ← decReq t "sha256" decStr
      let mt ← decReq t "mediaType" decStr
      let nm ← decReq t "name" decStr
      let sz ← decReq t "size" decNum
      let ann ← decOpt t "annotations" decStrMap
      let ft ← decOpt t "feature" decStrMap2
      let org ← decOpt t "origin" decStr
      .ok ⟨sha, mt, nm, sz, ann, ft, org⟩
  | _ => .error "expected table"

/-- Modelled from the spec: serde-derived deserializer for Condition with
deny_unknown_fields. -/
def decodeCondition : Toml → Except String Condition
  | .table t =>
    if !knownKeysOnly t conditionKeys then
      .error "unknown field"
    else do
      let mo ← decOpt t "memberOf" (decList decStr)
      let rq ← decOpt t "requires" (decList decStr)
      .ok ⟨mo, rq⟩
  | _ => .error "expected table"

/-- Modelled from the spec: serde-derived deserializer for Parcel with
deny_unknown_fields. -/
def decodeParcel : Toml → Except String Parcel
  | .table t =>
    if !knownKeysOnly t parcelKeys then
      .error "unknown field"
    else do
      let lb ← decReq t "label" decodeLabel
      let cd ← decOpt t "conditions" decodeCondition
      .ok ⟨lb, cd⟩
  | _ => .error "expected table"

/-- Modelled from the spec: serde-derived deserializer for Group with
deny_unknown_fields. -/
def decodeGroup : Toml → Except String Group
  | .table t =>
    if !knownKeysOnly t groupKeys then
      .error "unknown field"
    else do
      let nm ← decReq t "name" decStr
      let rq ← decOpt t "required" decBool
      let sb ← decOpt t "satisfiedBy" decStr
      .ok ⟨nm, rq, sb⟩
  | _ => .error "expected table"

/-- Modelled from the spec: version text parsed as a release semver
triple (Id deserialization lives in the missing src/src/id.rs; the spec
fixes versions to be semantic versions, section 3.1). -/
def decodeVersion (s : String) : Except String Version :=
  match parseVerParts s.toList with
  | some (a, some b, some c) => .ok ⟨a, b, c⟩
  | _ => .error "invalid version"

/-- Modelled from the spec: serde-derived deserializer for BindleSpec
with deny_unknown_fields; the flattened Id contributes the name and
version keys of the bindle table (sections 3.5 and 6.1). -/
def decodeBindleSpec : Toml → Except String BindleSpec
  | .table t =>
    if !knownKeysOnly t bindleSpecKeys then
      .error "unknown field"
    else do
      let nm ← decReq t "name" decStr
      let vs ← decReq t "version" decStr
      let v ← decodeVersion vs
      let ds ← decOpt t "description" decStr
      let au ← decOpt t "authors" (decList decStr)
      .ok ⟨⟨nm, v⟩, ds, au⟩
  | _ => .error "expected table"

/-- Modelled from the spec: serde-derived deserializer for Invoice with
deny_unknown_fields (camelCase wire names per section 6.1). -/
def decodeInvoice : Toml → Except String Invoice
  | .table t =>
    if !knownKeysOnly t invoiceKeys then
      .error "unknown field"
    else do
      let bv ← decReq t "bindleVersion" decStr
      let yk ← decOpt t "yanked" decBool
      let ys ← decOpt t "yankedSignature" (decList decodeSignature)
      let bd ← decReq t "bindle" decodeBindleSpec
      let ann ← decOpt t "annotations" decStrMap
      let pc ← decOpt t "parcel" (decList decodeParcel)
      let gp ← decOpt t "group" (decList decodeGroup)
      let sg ← decOpt t "signature" (decList decodeSignature)
      .ok ⟨bv, yk, ys, bd, ann, pc, gp, sg⟩
  | _ => .error "expected table"

/-- Public keys carried by well-formed key fields of the signatures on
an invoice: the keys used to sign it. -/
def keysOf (inv : Invoice) : List PubKey :=
  (inv.signature.getD []).filterMap (fun s =>
    match s.key with
    | .enc (.keyBytes pk) => some pk
    | _ => none)

/-- Property that a signature block was produced by Invoice::sign on
this invoice: its key field is a valid base64 key encoding and its
signature field is the base64 Ed25519 signature of the reconstructed
cleartext under that key. -/
def Signature.genuineFor (s : Signature) (inv : Invoice) : Prop :=
  ∃ pk, s.key = b64EncodeKey pk ∧
    s.signature = b64EncodeSig ⟨pk, inv.cleartext s.by_ s.role⟩

/-- Boolean test that verify_signature accepts this signature against
its reconstructed cleartext. -/
def sigOkB (inv : Invoice) (s : Signature) : Bool :=
  decide (inv.verify_signature s (inv.cleartext s.by_ s.role) = .ok ())

/-- Boolean test that the decoded public key of this signature lies on
the keyring (the known-key check of Invoice::verify). -/
def sigKnownB (keyring : List PubKey) (s : Signature) : Bool :=
  match b64Decode s.key with
  | none => false
  | some b =>
    match fromBytesKey b with
    | none => false
    | some pk => keyring.contains pk

/-- Sample invoice of the test suite: aricebo 1.2.3 with two parcels and
no signatures. -/
def invAricebo : Invoice :=
  { bindleVersion := "1.0.0"
    yanked := none
    yankedSignature := none
    bindle :=
      { id := { name := "aricebo", version := ⟨1, 2, 3⟩ }
        description := none
        authors := none }
    annotations := none
    parcel := some
      [⟨⟨"aaabbbcccdddeeefff", "image/gif", "telescope.gif", 123456, none, none, none⟩, none⟩,
       ⟨⟨"111aaabbbcccdddeee", "text/plain", "telescope.txt", 123456, none, none, none⟩, none⟩]
    group := none
    signature := none }

/-- Sample invoice with a present but empty signature list (the TOML
line signature equals the empty array produces this shape). -/
def invEmptySigs : Invoice := { invAricebo with signature := some [] }

/-- Signature block whose key field is valid base64 of bytes that are
not a 32-byte key, and whose signature field is not valid base64. -/
def sigBadKeyBadB64 : Signature :=
  { by_ := "Matt Butcher"
    key := .enc (.other "OBVIOUSLY FAKE")
    signature := .raw "***"
    role := .creator
    at_ := 1611960337 }

/-- Sample invoice carrying the doubly corrupt signature block. -/
def invBadBoth : Invoice := { invAricebo with signature := some [sigBadKeyBadB64] }

/-- Signature block of the corrupt-signature scenario: a valid 32-byte
key whose signature field is base64 of 15 bytes (not a 64-byte
signature). -/
def sigCorruptSig : Signature :=
  { by_ := "Matt Butcher"
    key := b64EncodeKey 9
    signature := .enc (.other "OBVIOUSLY FAKE")
    role := .creator
    at_ := 1611960337 }

/-- Sample invoice of the corrupt-signature scenario. -/
def invCorruptSig : Invoice := { invAricebo with signature := some [sigCorruptSig] }

/-- Result of signing the sample invoice as Matt with key 5 at the
sample timestamp. -/
def invSigned : Invoice :=
  { invAricebo with
    signature := some
      [{ by_ := "Matt"
         key := b64EncodeKey 5
         signature := b64EncodeSig (edSign ⟨5⟩ (invAricebo.cleartext "Matt" .creator))
         role := .creator
         at_ := 1611960337 }] }

/-- Sample invoice whose parcels name the group telescopes in their
conditions while the invoice declares no group at all. -/
def invNoGroups : Invoice :=
  { invAricebo with
    parcel := some
      [⟨⟨"aaabbbcccdddeeefff", "image/gif", "telescope.gif", 123456, none, none, none⟩,
        some ⟨some ["telescopes"], none⟩⟩] }

/-- Well-formed TOML document for a one-parcel invoice. -/
def tomlGoodInvoice : Toml :=
  .table
    [("bindleVersion", .str "1.0.0"),
     ("bindle", .table [("name", .str "aricebo"), ("version", .str "1.2.3")]),
     ("parcel", .arr
       [.table
         [("label", .table
           [("sha256", .str "abc123"),
            ("mediaType", .str "text/plain"),
            ("name", .str "f.txt"),
            ("size", .num 10)])]])]

/-- The same document with one extra unknown key inside the nested
label table. -/
def tomlBadNested : Toml :=
  .table
    [("bindleVersion", .str "1.0.0"),
     ("bindle", .table [("name", .str "aricebo"), ("version", .str "1.2.3")]),
     ("parcel", .arr
       [.table
         [("label", .table
           [("sha256", .str "abc123"),
            ("mediaType", .str "text/plain"),
            ("name", .str "f.txt"),
            ("size", .num 10),
            ("sneaky", .str "x")])]])]

/-- Changing only the signature field of an invoice leaves the signing
cleartext unchanged, since the cleartext reads only the id and the
parcel list. -/
lemma cleartext_set_signature (inv : Invoice) (sigs : Option (List Signature))
    (x : String) (r : SignatureRole) :
    ({ inv with signature := sigs } : Invoice).cleartext x r = inv.cleartext x r := rfl

/-- Join of a nonempty list: the head followed by separator-prefixed
tail entries. -/
lemma strJoin_cons (sep a : String) (l : List String) :
    strJoin sep (a :: l) = a ++ strConcat (l.map (fun x => sep ++ x)) := by
  induction l generalizing a with
  | nil => simp [strJoin, strConcat]
  | cons b t ih =>
    rw [show strJoin sep (a :: b :: t) = a ++ sep ++ strJoin sep (b :: t) from rfl, ih]
    simp [strConcat, String.append_assoc]

/-- Successful low-level signature verification forces the key and
signature fields to be valid encodings that verify strictly. -/
lemma verify_signature_ok_shape (inv : Invoice) (s : Signature) (c : String)
    (h : inv.verify_signature s c = .ok ()) :
    ∃ pk es, s.key = b64EncodeKey pk ∧ s.signature = b64EncodeSig es ∧
      verify_strict pk c es = true := by
  cases hk : s.key with
  | raw t => simp [Invoice.verify_signature, hk, b64Decode] at h
  | enc b =>
    cases hs : s.signature with
    | raw t2 => simp [Invoice.verify_signature, hk, hs, b64Decode] at h
    | enc b2 =>
      cases b with
      | keyBytes pk =>
        cases b2 with
        | sigBytes es =>
          refine ⟨pk, es, rfl, rfl, ?_⟩
          by_cases hv : verify_strict pk c es = true
          · exact hv
          · simp [Invoice.verify_signature, hk, hs, b64Decode, fromBytesKey,
              sigFromBytes, hv] at h
        | keyBytes pk2 =>
          simp [Invoice.verify_signature, hk, hs, b64Decode, fromBytesKey,
            sigFromBytes] at h
        | other t2 =>
          simp [Invoice.verify_signature, hk, hs, b64Decode, fromBytesKey,
            sigFromBytes] at h
      | sigBytes es =>
        simp [Invoice.verify_signature, hk, hs, b64Decode, fromBytesKey] at h
      | other t =>
        simp [Invoice.verify_signature, hk, hs, b64Decode, fromBytesKey] at h

/-- A signature produced by signing verifies against its cleartext. -/
lemma verify_signature_genuine (inv : Invoice) (s : Signature) (c : String) (pk : PubKey)
    (h1 : s.key = b64EncodeKey pk) (h2 : s.signature = b64EncodeSig ⟨pk, c⟩) :
    inv.verify_signature s c = .ok () := by
  simp [Invoice.verify_signature, h1, h2, b64EncodeKey, b64EncodeSig, b64Decode,
    fromBytesKey, sigFromBytes, verify_strict]

/-- Characterization of the verification loop: it succeeds exactly when
every signature verifies, and then it reports whether some signature key
was on the keyring. -/
lemma verifyLoop_ok_iff (inv : Invoice) (kr : List PubKey) (sigs : List Signature)
    (known b : Bool) :
    inv.verifyLoop kr sigs known = .ok b ↔
      ((∀ s ∈ sigs, sigOkB inv s = true) ∧ b = (known || sigs.any (sigKnownB kr))) := by
  induction sigs generalizing known with
  | nil =>
    simp only [Invoice.verifyLoop, List.not_mem_nil, false_implies, implies_true,
      List.any_nil, Bool.or_false, true_and]
    constructor
    · intro h
      cases h
      rfl
    · intro h
      rw [h]
  | cons s rest ih =>
    by_cases hok : inv.verify_signature s (inv.cleartext s.by_ s.role) = .ok ()
    · obtain ⟨pk, es, hkey, hsig, hv⟩ := verify_signature_ok_shape inv s _ hok
      have hstep : inv.verifyLoop kr (s :: rest) known =
          inv.verifyLoop kr rest (known || kr.contains pk) := by
        simp [Invoice.verifyLoop, hok, hkey, b64EncodeKey, b64Decode, fromBytesKey]
      have hknown : sigKnownB kr s = kr.contains pk := by
        simp [sigKnownB, hkey, b64EncodeKey, b64Decode, fromBytesKey]
      have hsok : sigOkB inv s = true := by simp [sigOkB, hok]
      rw [hstep, ih]
      simp [hsok, hknown, Bool.or_assoc]
    · cases herr : inv.verify_signature s (inv.cleartext s.by_ s.role) with
      | ok u =>
        cases u
        exact absurd herr hok
      | error e =>
        have hstep : inv.verifyLoop kr (s :: rest) known = .error e := by
          simp [Invoice.verifyLoop, herr]
        have hsok : sigOkB inv s = false := by
          simp [sigOkB, herr]
        rw [hstep]
        simp [hsok]

/-- Low-level verification failures are always a corrupt key, a corrupt
signature, or an unverified signature, each carrying the key field. -/
lemma verify_signature_error_shape (inv : Invoice) (s : Signature) (c : String)
    (e : SignatureError) (h : inv.verify_signature s c = .error e) :
    e = .CorruptKey s.key ∨ e = .CorruptSignature s.key ∨ e = .Unverified s.key := by
  cases hk : s.key with
  | raw t =>
    simp [Invoice.verify_signature, hk, b64Decode] at h
    simp [h, hk]
  | enc b =>
    cases hs : s.signature with
    | raw t2 =>
      simp [Invoice.verify_signature, hk, hs, b64Decode] at h
      simp [h, hk]
    | enc b2 =>
      cases b with
      | keyBytes pk =>
        cases b2 with
        | sigBytes es =>
          by_cases hv : verify_strict pk c es = true
          · simp [Invoice.verify_signature, hk, hs, b64Decode, fromBytesKey,
              sigFromBytes, hv] at h
          · simp [Invoice.verify_signature, hk, hs, b64Decode, fromBytesKey,
              sigFromBytes, hv] at h
            simp [h, hk]
        | keyBytes pk2 =>
          simp [Invoice.verify_signature, hk, hs, b64Decode, fromBytesKey,
            sigFromBytes] at h
          simp [h, hk]
        | other t2 =>
          simp [Invoice.verify_signature, hk, hs, b64Decode, fromBytesKey,
            sigFromBytes] at h
          simp [h, hk]
      | sigBytes es =>
        simp [Invoice.verify_signature, hk, hs, b64Decode, fromBytesKey] at h
        simp [h, hk]
      | other t =>
        simp [Invoice.verify_signature, hk, hs, b64Decode, fromBytesKey] at h
        simp [h, hk]

/-- The verification loop never reports NoKnownKey itself; that error
only arises from the final known-key check of verify. -/
lemma verifyLoop_ne_noKnownKey (inv : Invoice) (kr : List PubKey)
    (sigs : List Signature) (known : Bool) :
    inv.verifyLoop kr sigs known ≠ .error .NoKnownKey := by
  induction sigs generalizing known with
  | nil => simp [Invoice.verifyLoop]
  | cons s rest ih =>
    cases herr : inv.verify_signature s (inv.cleartext s.by_ s.role) with
    | error e =>
      have hstep : inv.verifyLoop kr (s :: rest) known = .error e := by
        simp [Invoice.verifyLoop, herr]
      rw [hstep]
      rcases verify_signature_error_shape inv s _ e herr with h | h | h <;> simp [h]
    | ok u =>
      cases u
      obtain ⟨pk, es, hkey, hsig, hv⟩ := verify_signature_ok_shape inv s _ herr
      have hstep : inv.verifyLoop kr (s :: rest) known =
          inv.verifyLoop kr rest (known || kr.contains pk) := by
        simp [Invoice.verifyLoop, herr, hkey, b64EncodeKey, b64Decode, fromBytesKey]
      rw [hstep]
      exact ih _

/-- Characterization of successful verification: the signature field is
absent, or every signature verifies and some key is on the keyring. -/
lemma verify_ok_iff (inv : Invoice) (kr : List PubKey) :
    inv.verify kr = .ok () ↔
      (inv.signature = none ∨
        ∃ sigs, inv.signature = some sigs ∧
          (∀ s ∈ sigs, sigOkB inv s = true) ∧ sigs.any (sigKnownB kr) = true) := by
  cases hs : inv.signature with
  | none => simp [Invoice.verify, hs]
  | some sigs =>
    simp only [Invoice.verify, hs]
    cases hl : inv.verifyLoop kr sigs false with
    | error e =>
      simp only [Option.some.injEq, reduceCtorEq, false_or]
      constructor
      · intro h
        exact absurd h (by simp)
      · rintro ⟨sigs2, h2, hall, hany⟩
        cases h2
        have : inv.verifyLoop kr sigs false = .ok (false || sigs.any (sigKnownB kr)) :=
          (verifyLoop_ok_iff inv kr sigs false _).mpr ⟨hall, rfl⟩
        rw [hl] at this
        exact absurd this (by simp)
    | ok knownKey =>
      obtain ⟨hall, hb⟩ := (verifyLoop_ok_iff inv kr sigs false knownKey).mp hl
      simp only [Bool.false_or] at hb
      subst hb
      cases hany : sigs.any (sigKnownB kr) with
      | false =>
        simp [hany, hall]
        intro _
        simpa using hany
      | true =>
        simp [hany]
        exact ⟨hall, by simpa using hany⟩

/-- Characterization of the NoKnownKey failure: every signature verifies
but no signature key lies on the keyring. -/
lemma verify_noKnownKey_iff (inv : Invoice) (kr : List PubKey) :
    inv.verify kr = .error .NoKnownKey ↔
      (∃ sigs, inv.signature = some sigs ∧
        (∀ s ∈ sigs, sigOkB inv s = true) ∧ sigs.any (sigKnownB kr) = false) := by
  cases hs : inv.signature with
  | none => simp [Invoice.verify, hs]
  | some sigs =>
    simp only [Invoice.verify, hs]
    cases hl : inv.verifyLoop kr sigs false with
    | error e =>
      constructor
      · intro h
        injection h with he
        subst he
        exact absurd hl (verifyLoop_ne_noKnownKey inv kr sigs false)
      · rintro ⟨sigs2, h2, hall, hany⟩
        injection h2 with h2
        subst h2
        have : inv.verifyLoop kr sigs false = .ok (false || sigs.any (sigKnownB kr)) :=
          (verifyLoop_ok_iff inv kr sigs false _).mpr ⟨hall, rfl⟩
        rw [hl] at this
        exact absurd this (by simp)
    | ok knownKey =>
      obtain ⟨hall, hb⟩ := (verifyLoop_ok_iff inv kr sigs false knownKey).mp hl
      simp only [Bool.false_or] at hb
      subst hb
      cases hany : sigs.any (sigKnownB kr) with
      | false =>
        simp [hany]
        exact ⟨hall, by simpa using hany⟩
      | true =>
        simp [hany, hall]
        intro _
        simpa using hany

/-- Successful signing appends exactly the freshly built signature
record, creating the list when absent, and changes nothing else. -/
lemma sign_ok_shape (I : Invoice) (nm : String) (role : SignatureRole) (k : Keypair)
    (now : Nat) (I2 : Invoice) (h : I.sign nm role k now = .ok I2) :
    I2 = { I with
      signature := some ((I.signature.getD []) ++
        [{ by_ := nm
           key := b64EncodeKey k.pubkey
           signature := b64EncodeSig (edSign k (I.cleartext nm role))
           role := role
           at_ := now }]) } := by
  by_cases hdup :
      (I.signature.getD []).any (fun s => s.key == b64EncodeKey k.pubkey) = true
  · simp [Invoice.sign, hdup] at h
  · cases hsig : I.signature with
    | none =>
      rw [hsig] at hdup
      simp [Invoice.sign, hsig, Option.getD] at h hdup ⊢
      exact h.symm
    | some sigs =>
      rw [hsig] at hdup
      have hfalse : sigs.any (fun s => s.key == b64EncodeKey k.pubkey) = false :=
        Bool.eq_false_iff.mpr (by simpa using hdup)
      simp [Invoice.sign, hsig, Option.getD, hfalse] at h ⊢
      exact h.symm

/-- Signing with a key that already signed the invoice is refused. -/
lemma sign_dup_of_mem (I : Invoice) (nm : String) (role : SignatureRole) (k : Keypair)
    (now : Nat) (hmem : ∃ s ∈ I.signature.getD [], s.key = b64EncodeKey k.pubkey) :
    I.sign nm role k now = .error .DuplicateSignature := by
  have hdup : (I.signature.getD []).any (fun s => s.key == b64EncodeKey k.pubkey) = true := by
    obtain ⟨s, hs, hk⟩ := hmem
    exact List.any_eq_true.mpr ⟨s, hs, by simp [hk]⟩
  simp [Invoice.sign, hdup]

/-- The verification loop accepts any list of genuine signatures and
reports whether one of their keys is on the keyring. -/
lemma genuine_loop (inv : Invoice) (kr : List PubKey) (sigs : List Signature)
    (known : Bool) (h : ∀ s ∈ sigs, s.genuineFor inv) :
    inv.verifyLoop kr sigs known = .ok (known || sigs.any (sigKnownB kr)) := by
  apply (verifyLoop_ok_iff inv kr sigs known _).mpr
  refine ⟨?_, rfl⟩
  intro s hs
  obtain ⟨pk, h1, h2⟩ := h s hs
  simp [sigOkB, verify_signature_genuine inv s (inv.cleartext s.by_ s.role) pk h1 h2]

/-- An invoice whose signatures are all genuine and at least one of
whose signatures has a well-formed key verifies against the keyring of
its own signing keys. -/
lemma verify_ok_of_genuine (inv : Invoice) (sigs : List Signature)
    (hs : inv.signature = some sigs)
    (hgen : ∀ s ∈ sigs, s.genuineFor inv)
    (hne : ∃ s ∈ sigs, ∃ pk, s.key = b64EncodeKey pk) :
    inv.verify (keysOf inv) = .ok () := by
  apply (verify_ok_iff inv (keysOf inv)).mpr
  right
  refine ⟨sigs, hs, ?_, ?_⟩
  · intro s hsmem
    obtain ⟨pk, h1, h2⟩ := hgen s hsmem
    simp [sigOkB, verify_signature_genuine inv s _ pk h1 h2]
  · obtain ⟨s, hsmem, pk, hkey⟩ := hne
    refine List.any_eq_true.mpr ⟨s, hsmem, ?_⟩
    have hpkmem : pk ∈ keysOf inv := by
      unfold keysOf
      rw [hs]
      refine List.mem_filterMap.mpr ⟨s, by simpa using hsmem, ?_⟩
      rw [hkey]
      rfl
    simp only [sigKnownB, hkey, b64EncodeKey, b64Decode, fromBytesKey]
    simpa using hpkmem

/-- C1: sign-then-verify round trip. For every invoice whose existing
signatures were themselves produced by signing, every signer name, role
and Ed25519 keypair, after a successful sign, verifying the resulting
invoice with a keyring containing exactly the public keys used to sign
it returns Ok. -/
theorem sign_then_verify_roundtrip (I : Invoice) (nm : String) (role : SignatureRole)
    (k : Keypair) (now : Nat) (I2 : Invoice)
    (hgen : ∀ s ∈ I.signature.getD [], s.genuineFor I)
    (hsign : I.sign nm role k now = .ok I2) :
    I2.verify (keysOf I2) = .ok () := by
  have hshape := sign_ok_shape I nm role k now I2 hsign
  subst hshape
  apply verify_ok_of_genuine _ _ rfl
  · intro s hsmem
    rcases List.mem_append.mp hsmem with hold | hnew
    · obtain ⟨pk, h1, h2⟩ := hgen s hold
      exact ⟨pk, h1, h2⟩
    · rw [List.mem_singleton] at hnew
      subst hnew
      exact ⟨k.pubkey, rfl, rfl⟩
  · exact ⟨_, List.mem_append_right _ (List.mem_singleton.mpr rfl), k.pubkey, rfl⟩

/-- Witness for C1 at a concrete invoice and keypair. -/
theorem sign_then_verify_roundtrip_witness :
    invAricebo.sign "Matt" .creator ⟨5⟩ 1611960337 = .ok invSigned ∧
    invSigned.verify (keysOf invSigned) = .ok () :=
  ⟨by decide,
   sign_then_verify_roundtrip invAricebo "Matt" .creator ⟨5⟩ 1611960337 invSigned
     (by simp [invAricebo]) (by decide)⟩

/-- C3: at-most-once signing per key. Signing fails DuplicateSignature
when any existing signature carries the same public key, and in
particular a second sign with the keypair of a successful sign fails
DuplicateSignature whatever the name, role or timestamp. -/
theorem sign_duplicate_key (I : Invoice) (nm nm2 : String) (r r2 : SignatureRole)
    (k : Keypair) (t t2 : Nat) (I2 : Invoice) :
    ((∃ s ∈ I.signature.getD [], s.key = b64EncodeKey k.pubkey) →
      I.sign nm r k t = .error .DuplicateSignature) ∧
    (I.sign nm r k t = .ok I2 → I2.sign nm2 r2 k t2 = .error .DuplicateSignature) := by
  constructor
  · exact sign_dup_of_mem I nm r k t
  · intro h
    have hshape := sign_ok_shape I nm r k t I2 h
    apply sign_dup_of_mem
    rw [hshape]
    exact ⟨_, List.mem_append_right _ (List.mem_singleton.mpr rfl), rfl⟩

/-- Witness for C3: re-signing the concrete signed invoice with the same
key is refused. -/
theorem sign_duplicate_key_witness :
    invSigned.sign "Someone Else" .host ⟨5⟩ 7 = .error .DuplicateSignature :=
  (sign_duplicate_key invAricebo "Matt" "Someone Else" .creator .host ⟨5⟩ 1611960337 7
    invSigned).2 (by decide)

/-- C7: the signature record produced by signing. A successful sign
appends exactly one record holding the signer name, the base64 public
key, the base64 Ed25519 signature over the cleartext, the given role and
the Unix timestamp of the signing moment, creating the list when absent
and leaving every other field and all prior signatures unchanged. -/
theorem sign_appends_record (I : Invoice) (nm : String) (role : SignatureRole)
    (k : Keypair) (now : Nat) (I2 : Invoice) (h : I.sign nm role k now = .ok I2) :
    I2 = { I with
      signature := some ((I.signature.getD []) ++
        [{ by_ := nm
           key := b64EncodeKey k.pubkey
           signature := b64EncodeSig (edSign k (I.cleartext nm role))
           role := role
           at_ := now }]) } :=
  sign_ok_shape I nm role k now I2 h

/-- Witness for C7 at the concrete sample invoice. -/
theorem sign_appends_record_witness :
    invSigned = { invAricebo with
      signature := some ((invAricebo.signature.getD []) ++
        [{ by_ := "Matt"
           key := b64EncodeKey (Keypair.mk 5).pubkey
           signature := b64EncodeSig (edSign ⟨5⟩ (invAricebo.cleartext "Matt" .creator))
           role := .creator
           at_ := 1611960337 }]) } :=
  sign_appends_record invAricebo "Matt" .creator ⟨5⟩ 1611960337 invSigned (by decide)

/-- C2 counterexample: an invoice whose signature field holds a present
but empty list carries no signatures, yet verify fails NoKnownKey for
the empty keyring instead of succeeding. -/
theorem verify_contract_counterexample :
    invEmptySigs.signature = some [] ∧
    invEmptySigs.verify [] = .error .NoKnownKey := by
  constructor
  · rfl
  · decide

/-- C2 (amended): verify succeeds exactly when the signature field is
absent, or every signature verifies against its reconstructed cleartext
and at least one signature key lies on the keyring; it fails NoKnownKey
exactly when a signature list is present (possibly empty), every entry
verifies, and no entry key lies on the keyring. -/
theorem verify_contract_amended (inv : Invoice) (kr : List PubKey) :
    (inv.verify kr = .ok () ↔
      (inv.signature = none ∨
        ∃ sigs, inv.signature = some sigs ∧
          (∀ s ∈ sigs, sigOkB inv s = true) ∧ sigs.any (sigKnownB kr) = true)) ∧
    (inv.verify kr = .error .NoKnownKey ↔
      (∃ sigs, inv.signature = some sigs ∧
        (∀ s ∈ sigs, sigOkB inv s = true) ∧ sigs.any (sigKnownB kr) = false)) :=
  ⟨verify_ok_iff inv kr, verify_noKnownKey_iff inv kr⟩

/-- C4: cleartext construction. The signing cleartext is the signer
name, the id name, the version string, the lowercase role name and a
tilde, joined with newlines, followed by a newline-prefixed sha256 for
each declared parcel in declared order; a missing parcel list
contributes no entries. -/
theorem cleartext_characterization (inv : Invoice) (x : String) (r : SignatureRole) :
    inv.cleartext x r =
      x ++ "\n" ++ inv.bindle.id.name ++ "\n" ++ inv.bindle.id.version_string ++ "\n" ++
      r.str ++ "\n" ++ "~" ++
      strConcat (((inv.parcel.getD []).map (fun p => p.label.sha256)).map
        (fun h => "\n" ++ h)) := by
  cases hp : inv.parcel with
  | none => simp [Invoice.cleartext, hp, strJoin_cons, strConcat, String.append_assoc]
  | some l => simp [Invoice.cleartext, hp, strJoin_cons, strConcat, String.append_assoc]

/-- C5 counterexample: when the key field is valid base64 of bytes that
do not form a key (so key reconstruction fails) while the signature
field is not valid base64, verify reports CorruptSignature, not the
CorruptKey the claim predicts for a failed key reconstruction. -/
theorem verify_error_order_counterexample :
    b64Decode sigBadKeyBadB64.key = some (.other "OBVIOUSLY FAKE") ∧
    fromBytesKey (.other "OBVIOUSLY FAKE") = none ∧
    invBadBoth.verify [7] = .error (.CorruptSignature sigBadKeyBadB64.key) ∧
    invBadBoth.verify [7] ≠ .error (.CorruptKey sigBadKeyBadB64.key) := by
  refine ⟨rfl, rfl, by decide, by decide⟩

/-- C5 (amended): for a single-signature invoice, verification checks in
source order: base64 of the key (failure CorruptKey with the key
string), base64 of the signature block (failure CorruptSignature), key
reconstruction (failure CorruptKey), 64-byte signature shape (failure
CorruptSignature), then strict Ed25519 verification (failure
Unverified), and finally the keyring membership check. -/
theorem verify_single_signature_errors (inv : Invoice) (s : Signature)
    (kr : List PubKey) (h : inv.signature = some [s]) :
    inv.verify kr =
      (match b64Decode s.key with
       | none => .error (.CorruptKey s.key)
       | some kb =>
         match b64Decode s.signature with
         | none => .error (.CorruptSignature s.key)
         | some sb =>
           match fromBytesKey kb with
           | none => .error (.CorruptKey s.key)
           | some pk =>
             match sigFromBytes sb with
             | none => .error (.CorruptSignature s.key)
             | some es =>
               if verify_strict pk (inv.cleartext s.by_ s.role) es then
                 (if kr.contains pk then .ok () else .error .NoKnownKey)
               else .error (.Unverified s.key)) := by
  cases hk : s.key with
  | raw t =>
    simp [Invoice.verify, h, Invoice.verifyLoop, Invoice.verify_signature, hk, b64Decode]
  | enc b =>
    cases hs2 : s.signature with
    | raw t2 =>
      simp [Invoice.verify, h, Invoice.verifyLoop, Invoice.verify_signature, hk, hs2,
        b64Decode]
    | enc b2 =>
      cases b with
      | keyBytes pk =>
        cases b2 with
        | sigBytes es =>
          by_cases hv : verify_strict pk (inv.cleartext s.by_ s.role) es = true
          · by_cases hc : kr.contains pk = true
            · simp [Invoice.verify, h, Invoice.verifyLoop, Invoice.verify_signature,
                hk, hs2, b64Decode, fromBytesKey, sigFromBytes, hv, hc]
            · have hc2 : kr.contains pk = false := by simpa using hc
              simp [Invoice.verify, h, Invoice.verifyLoop, Invoice.verify_signature,
                hk, hs2, b64Decode, fromBytesKey, sigFromBytes, hv, hc2]
          · have hv2 : verify_strict pk (inv.cleartext s.by_ s.role) es = false := by
              simpa using hv
            simp [Invoice.verify, h, Invoice.verifyLoop, Invoice.verify_signature,
              hk, hs2, b64Decode, fromBytesKey, sigFromBytes, hv2]
        | keyBytes pk2 =>
          simp [Invoice.verify, h, Invoice.verifyLoop, Invoice.verify_signature,
            hk, hs2, b64Decode, fromBytesKey, sigFromBytes]
        | other t2 =>
          simp [Invoice.verify, h, Invoice.verifyLoop, Invoice.verify_signature,
            hk, hs2, b64Decode, fromBytesKey, sigFromBytes]
      | sigBytes es =>
        simp [Invoice.verify, h, Invoice.verifyLoop, Invoice.verify_signature,
          hk, hs2, b64Decode, fromBytesKey]
      | other t =>
        simp [Invoice.verify, h, Invoice.verifyLoop, Invoice.verify_signature,
          hk, hs2, b64Decode, fromBytesKey]

/-- Witness for C5: the concrete corrupt-signature scenario, with the
valid key on the keyring, fails CorruptSignature carrying that key. -/
theorem verify_single_signature_errors_witness :
    invCorruptSig.verify [9] = .error (.CorruptSignature (b64EncodeKey 9)) := by
  have h := verify_single_signature_errors invCorruptSig sigCorruptSig [9] rfl
  rw [h]
  decide

/-- C6: SemVer requirement matching. An empty requirement matches every
version; an unparsable nonempty requirement matches no version; a bare
version literal is an exact npm-style match; and the concrete sample
requirements behave as the spec lists for version 1.2.3. -/
theorem version_compare_spec :
    (∀ v : Version, version_compare v "" = true) ∧
    (∀ (v : Version) (r : String), r ≠ "" → parseReq r = none →
      version_compare v r = false) ∧
    (∀ v : Version, (version_compare v "1.2.3" = true ↔ v = ⟨1, 2, 3⟩)) ∧
    (version_compare ⟨1, 2, 3⟩ "= 1.2.3" = true ∧
     version_compare ⟨1, 2, 3⟩ "1.2.3" = true ∧
     version_compare ⟨1, 2, 3⟩ "^1.1" = true ∧
     version_compare ⟨1, 2, 3⟩ "~1.2" = true ∧
     version_compare ⟨1, 2, 3⟩ "" = true ∧
     version_compare ⟨1, 2, 3⟩ "2" = false ∧
     version_compare ⟨1, 2, 3⟩ "%^&%^&%" = false) := by
  refine ⟨?_, ?_, ?_, ?_⟩
  · intro v
    rfl
  · intro v r h1 h2
    have he : r.isEmpty = false := by
      rw [Bool.eq_false_iff]
      simpa [String.isEmpty_iff] using h1
    simp [version_compare, he, h2]
  · intro v
    have hp : parseReq "1.2.3" = some ⟨.exact, 1, some 2, some 3⟩ := by decide
    have he : ("1.2.3" : String).isEmpty = false := by decide
    simp [version_compare, he, hp, reqMatches]
  · refine ⟨by decide, by decide, by decide, by decide, by decide, by decide, by decide⟩

/-- Witness for C6: the unparsable requirement rejects an arbitrary
version through the second clause. -/
theorem version_compare_spec_witness :
    version_compare ⟨9, 9, 9⟩ "%^&%^&%" = false :=
  version_compare_spec.2.1 ⟨9, 9, 9⟩ "%^&%^&%" (by decide) (by decide)

/-- C8: global-group membership. A parcel is a global-group member
exactly when it has no conditions or its member list is absent or
empty; it is a member of a named group exactly when its member list
exists and contains the name; and the concrete telescopes parcel is not
global while matching the telescopes group. -/
theorem global_group_spec :
    (∀ p : Parcel, p.is_global_group = true ↔
      (p.conditions = none ∨
        ∃ c, p.conditions = some c ∧ (c.memberOf = none ∨ c.memberOf = some []))) ∧
    (∀ (p : Parcel) (g : String), p.member_of g = true ↔
      ∃ c gs, p.conditions = some c ∧ c.memberOf = some gs ∧ g ∈ gs) ∧
    (∀ lb : Label,
      (Parcel.mk lb (some ⟨some ["telescopes"], none⟩)).is_global_group = false ∧
      (Parcel.mk lb (some ⟨some ["telescopes"], none⟩)).member_of "telescopes" = true ∧
      (Parcel.mk lb none).is_global_group = true) := by
  refine ⟨?_, ?_, ?_⟩
  · intro p
    cases hc : p.conditions with
    | none => simp [Parcel.is_global_group, hc]
    | some c =>
      cases hm : c.memberOf with
      | none => simp [Parcel.is_global_group, hc, hm]
      | some gs => simp [Parcel.is_global_group, hc, hm]
  · intro p g
    cases hc : p.conditions with
    | none => simp [Parcel.member_of, hc]
    | some c =>
      cases hm : c.memberOf with
      | none => simp [Parcel.member_of, hc, hm]
      | some gs =>
        constructor
        · intro hany
          have h2 : ∃ x ∈ gs, (x == g) = true :=
            List.any_eq_true.mp (by simpa [Parcel.member_of, hc, hm] using hany)
          obtain ⟨x, hx, hxg⟩ := h2
          have hxe : x = g := by simpa using hxg
          subst hxe
          exact ⟨c, gs, rfl, hm, hx⟩
        · rintro ⟨c2, gs2, hc2, hgs2, hg⟩
          injection hc2 with he
          subst he
          rw [hm] at hgs2
          injection hgs2 with he2
          subst he2
          simp only [Parcel.member_of, hc, hm]
          exact List.any_eq_true.mpr ⟨g, hg, by simp⟩
  · intro lb
    exact ⟨rfl, by simp [Parcel.member_of], rfl⟩

/-- C10: group membership lookup. When the invoice declares no group of
the given name the member list is empty, whatever the parcels say; when
the group exists the members are exactly the declared parcels whose
conditions name the group, in declared order. -/
theorem group_members_spec (inv : Invoice) (n : String) :
    (inv.has_group n = false → inv.group_members n = []) ∧
    (inv.has_group n = true →
      inv.group_members n = (inv.parcel.getD []).filter (fun p => p.member_of n)) ∧
    (inv.has_group n = true ↔ ∃ g ∈ inv.group.getD [], g.name = n) := by
  refine ⟨?_, ?_, ?_⟩
  · intro h
    simp [Invoice.group_members, h]
  · intro h
    simp [Invoice.group_members, h]
  · simp [Invoice.has_group, List.any_eq_true]

/-- Witness for C10: parcels naming the telescopes group do not appear
as members when the invoice declares no such group. -/
theorem group_members_spec_witness : invNoGroups.group_members "telescopes" = [] :=
  (group_members_spec invNoGroups "telescopes").1 (by decide)

/-- A table holding a key outside the schema list fails the
deny_unknown_fields check. -/
lemma knownKeysOnly_eq_false (t : List (String × Toml)) (ks : List String) (k : String)
    (hmem : k ∈ t.map (fun p => p.1)) (hnot : k ∉ ks) :
    knownKeysOnly t ks = false := by
  obtain ⟨p, hp, hpk⟩ := List.mem_map.mp hmem
  apply Bool.eq_false_iff.mpr
  intro hall
  have hcont := (List.all_eq_true.mp hall) p hp
  rw [hpk] at hcont
  exact hnot (by simpa using hcont)

/-- C9: unknown fields are rejected. A TOML table containing any key
outside the respective schema is refused by every deserializer of the
invoice and of its nested structures, and an otherwise well-formed
invoice document is refused end to end when a nested label table gains
one unknown key. -/
theorem toml_unknown_field_rejected (t : List (String × Toml)) (k : String)
    (hmem : k ∈ t.map (fun p => p.1)) :
    ((decodeInvoice tomlGoodInvoice).isOk = true ∧
     (decodeInvoice tomlBadNested).isOk = false) ∧
    ((k ∉ invoiceKeys → ∃ e, decodeInvoice (.table t) = .error e) ∧
     (k ∉ bindleSpecKeys → ∃ e, decodeBindleSpec (.table t) = .error e) ∧
     (k ∉ labelKeys → ∃ e, decodeLabel (.table t) = .error e) ∧
     (k ∉ parcelKeys → ∃ e, decodeParcel (.table t) = .error e) ∧
     (k ∉ conditionKeys → ∃ e, decodeCondition (.table t) = .error e) ∧
     (k ∉ groupKeys → ∃ e, decodeGroup (.table t) = .error e) ∧
     (k ∉ signatureKeys → ∃ e, decodeSignature (.table t) = .error e)) := by
  refine ⟨⟨by decide, by decide⟩, ?_, ?_, ?_, ?_, ?_, ?_, ?_⟩
  · intro hnot
    exact ⟨"unknown field", by simp [decodeInvoice, knownKeysOnly_eq_false t invoiceKeys k hmem hnot]⟩
  · intro hnot
    exact ⟨"unknown field", by
      simp [decodeBindleSpec, knownKeysOnly_eq_false t bindleSpecKeys k hmem hnot]⟩
  · intro hnot
    exact ⟨"unknown field", by simp [decodeLabel, knownKeysOnly_eq_false t labelKeys k hmem hnot]⟩
  · intro hnot
    exact ⟨"unknown field", by simp [decodeParcel, knownKeysOnly_eq_false t parcelKeys k hmem hnot]⟩
  · intro hnot
    exact ⟨"unknown field", by
      simp [decodeCondition, knownKeysOnly_eq_false t conditionKeys k hmem hnot]⟩
  · intro hnot
    exact ⟨"unknown field", by simp [decodeGroup, knownKeysOnly_eq_false t groupKeys k hmem hnot]⟩
  · intro hnot
    exact ⟨"unknown field", by
      simp [decodeSignature, knownKeysOnly_eq_false t signatureKeys k hmem hnot]⟩

/-- Witness for C9: a table with the single unknown key color is
refused by the invoice deserializer. -/
theorem toml_unknown_field_rejected_witness :
    ∃ e, decodeInvoice (.table [("color", .str "red")]) = .error e :=
  (toml_unknown_field_rejected [("color", .str "red")] "color" (by simp)).2.1 (by decide)

end Bindle
